import Mathlib

/-!
Shallow embedding of the recipe-based sales screen of the AltuGreal 2.0
point-of-sale application (source file `src/components/pages/SalesPage.tsx`).

Numbers are modelled as exact rationals (`ℚ`); `Math.floor` is `Int.floor`.
Database rows are records; the `productIngredients` map (a JS `Record`) is an
association list with unique keys, and the page state holds the cart and the
user's selections exactly as the React component does.
-/

namespace AltuSales

/-- Unit type of an inventory item: `'weight' | 'quantity'`. -/
inductive UnitType where
  | weight
  | quantity
deriving DecidableEq, Repr

/-- Dine-in / takeout selection: `'dine_in' | 'takeout'`. -/
inductive DineInTakeout where
  | dine_in
  | takeout
deriving DecidableEq, Repr

/-- Row of the `products` table (a raw-material inventory item): id, name,
quantity on hand (kilograms for weight items, pieces otherwise), per-base-unit
cost, and unit type. -/
structure InventoryItem where
  id : String
  name : String
  qty : ℚ
  cost : ℚ
  unit_type : UnitType
deriving DecidableEq, Repr

/-- Row of the `product_ingredients` table: one recipe line linking a finished
product to an inventory item with a quantity per unit (grams or pieces). -/
structure ProductIngredient where
  id : String
  product_id : String
  item_id : String
  qty : ℚ
deriving DecidableEq, Repr

/-- Row of the `finished_products` table. -/
structure FinishedProduct where
  id : String
  name : String
  selling_price : ℚ
deriving DecidableEq, Repr

/-- One cart line: the `CartItem` interface of the sales page. -/
structure CartItem where
  product : FinishedProduct
  quantity : ℚ
  ingredients : List ProductIngredient
deriving DecidableEq, Repr

/-- The sales page's React state relevant to the cart logic: the fetched
inventory snapshot, the grouped `productIngredients` record (association list
keyed by finished-product id), the cart, and the checkout selections.
`selectedProduct` and `quantity` are the product-selection modal's state,
read by `addToCart`. -/
structure PageState where
  inventoryItems : List InventoryItem
  productIngredients : List (String × List ProductIngredient)
  cart : List CartItem
  selectedPaymentMethod : String
  selectedCustomerType : String
  dineInEnabled : Bool
  selectedDineInTakeout : Option DineInTakeout
  selectedProduct : Option FinishedProduct
  quantity : ℚ
deriving DecidableEq, Repr

/-- Lookup `productIngredients[productId] || []`. -/
def lookupPI (st : PageState) (productId : String) : List ProductIngredient :=
  (((st.productIngredients.find? (fun e => e.1 == productId)).map Prod.snd).getD [])

/-- Lookup `inventoryItems.find(i => i.id === id)`. -/
def findItem (st : PageState) (itemId : String) : Option InventoryItem :=
  st.inventoryItems.find? (fun i => i.id == itemId)

/-- Source function `getInventoryInIngredientUnit`: stock converted to the recipe unit
(grams for weight items: `qty * 1000`; pieces otherwise). -/
def getInventoryInIngredientUnit (item : InventoryItem) : ℚ :=
  match item.unit_type with
  | .weight => item.qty * 1000
  | .quantity => item.qty

/-- The reservation sum both `canSellProduct` and `getMaxQuantity` compute:
over cart lines whose product differs from `productId`, add that product's
(first) recipe quantity for `itemId` times the line's quantity. Mirrors the
`filter` + `reduce` in the source. -/
def cartReserved (st : PageState) (productId itemId : String) : ℚ :=
  (st.cart.filter (fun c => !(c.product.id == productId))).foldl
    (fun total cartItem =>
      total +
        (match (lookupPI st cartItem.product.id).find? (fun ci => ci.item_id == itemId) with
         | some matchingIng => matchingIng.qty * cartItem.quantity
         | none => 0))
    0

/-- Source function `canSellProduct(productId, qty)`: false when the product has no recipe
lines; otherwise every recipe line must have a present ingredient whose
converted stock is at least `ing.qty * qty` plus other-cart reservations. -/
def canSellProduct (st : PageState) (productId : String) (qty : ℚ) : Bool :=
  let ingredients := lookupPI st productId
  if ingredients.isEmpty then false
  else
    ingredients.all (fun ing =>
      match findItem st ing.item_id with
      | none => false
      | some item =>
        let inventoryStock := getInventoryInIngredientUnit item
        let cartQty := cartReserved st productId ing.item_id
        let requiredQty := ing.qty * qty + cartQty
        decide (requiredQty ≤ inventoryStock))

/-- The `for` loop of `getMaxQuantity`: `acc = none` models `maxQty = Infinity`;
a missing ingredient or a zero recipe quantity sets `maxQty = 0` and breaks;
at the end `Infinity` is mapped to 0. -/
def maxQtyLoop (st : PageState) (productId : String) :
    List ProductIngredient → Option ℤ → ℤ
  | [], acc => acc.getD 0
  | ing :: rest, acc =>
    match findItem st ing.item_id with
    | none => 0
    | some item =>
      if ing.qty = 0 then 0
      else
        let availableStock := getInventoryInIngredientUnit item - cartReserved st productId ing.item_id
        let possibleQty : ℤ := ⌊availableStock / ing.qty⌋
        maxQtyLoop st productId rest
          (some (match acc with
                 | none => possibleQty
                 | some m => min m possibleQty))

/-- Source function `getMaxQuantity(productId)`. -/
def getMaxQuantity (st : PageState) (productId : String) : ℤ :=
  let ingredients := lookupPI st productId
  if ingredients.isEmpty then 0
  else maxQtyLoop st productId ingredients none

/-- Source function `calculateProductCost(productId)`: `reduce` of `item.cost * ing.qty`
(0 for a missing ingredient) over the recipe lines. -/
def calculateProductCost (st : PageState) (productId : String) : ℚ :=
  (lookupPI st productId).foldl
    (fun total ing =>
      total +
        (match findItem st ing.item_id with
         | some item => item.cost * ing.qty
         | none => 0))
    0

/-- Overwrite step `updatedCart[existingIndex] = { ...updatedCart[existingIndex], quantity }`:
overwrite the quantity of the first cart line for `productId`. -/
def updateFirstQty : List CartItem → String → ℚ → List CartItem
  | [], _, _ => []
  | c :: rest, productId, q =>
    if c.product.id == productId then { c with quantity := q } :: rest
    else c :: updateFirstQty rest productId q

/-- Source function `addToCart()`: reads `selectedProduct` and `quantity` from the page state;
rejects a non-positive quantity, a quantity above `getMaxQuantity`, and a
product with no recipe lines (each with no state change); otherwise overwrites
the existing cart line or appends a new one, then closes the modal. -/
def addToCart (st : PageState) : PageState :=
  match st.selectedProduct with
  | none => st
  | some p =>
    if st.quantity ≤ 0 then st
    else if (getMaxQuantity st p.id : ℚ) < st.quantity then st
    else
      let ingredients := lookupPI st p.id
      if ingredients.isEmpty then st
      else
        let newCart :=
          if st.cart.any (fun c => c.product.id == p.id) then
            updateFirstQty st.cart p.id st.quantity
          else
            st.cart ++ [⟨p, st.quantity, ingredients⟩]
        { st with cart := newCart, selectedProduct := none, quantity := 1 }

/-- Source function `removeFromCart(productId)`. -/
def removeFromCart (st : PageState) (productId : String) : PageState :=
  { st with cart := st.cart.filter (fun c => !(c.product.id == productId)) }

/-- Source function `updateCartQuantity(productId, newQuantity)`: removes the line when the
new quantity is non-positive, rejects a quantity above `getMaxQuantity`,
otherwise overwrites the line's quantity. -/
def updateCartQuantity (st : PageState) (productId : String) (newQuantity : ℚ) : PageState :=
  if newQuantity ≤ 0 then removeFromCart st productId
  else if (getMaxQuantity st productId : ℚ) < newQuantity then st
  else
    { st with
      cart := st.cart.map (fun c =>
        if c.product.id == productId then { c with quantity := newQuantity } else c) }

/-- Source function `clearCart()`: empties the cart and resets the three selections. -/
def clearCart (st : PageState) : PageState :=
  { st with
    cart := []
    selectedPaymentMethod := ""
    selectedCustomerType := ""
    selectedDineInTakeout := none }

/-- One persisted row of the `sales` table as built by `handleCheckout`
(`transaction_id`, a random UUID shared by the lines of one checkout, is
outside the pure calculation and omitted). -/
structure SaleRecord where
  product_id : String
  product_name : String
  qty : ℚ
  unit_type : String
  cost : ℚ
  selling_price : ℚ
  total : ℚ
  payment_method : String
  customer_type : String
  dine_in_takeout : Option DineInTakeout
deriving DecidableEq, Repr

/-- The client-side validation at the top of `handleCheckout`: non-empty cart,
payment method and customer type selected, dine-in/takeout selected when the
feature is enabled, and every cart line re-validated with `canSellProduct`. -/
def checkoutValidates (st : PageState) : Bool :=
  !st.cart.isEmpty
    && !(st.selectedPaymentMethod == "")
    && !(st.selectedCustomerType == "")
    && (!st.dineInEnabled || st.selectedDineInTakeout.isSome)
    && st.cart.all (fun item => canSellProduct st item.product.id item.quantity)

/-- Insertion-ordered upsert into the `ingredientDeductions` record:
`ded[k] = (ded[k] || 0) + v`, keeping the key's original position. -/
def upsertAdd : List (String × ℚ) → String → ℚ → List (String × ℚ)
  | [], k, v => [(k, v)]
  | e :: rest, k, v =>
    if e.1 == k then (e.1, e.2 + v) :: rest
    else e :: upsertAdd rest k v

/-- The `ingredientDeductions` record built by `handleCheckout`: for every
cart line and every recipe line of its product, add `ing.qty * item.quantity`
under the ingredient's id. -/
def ingredientDeductions (st : PageState) : List (String × ℚ) :=
  st.cart.foldl
    (fun acc item =>
      (lookupPI st item.product.id).foldl
        (fun acc2 ing => upsertAdd acc2 ing.item_id (ing.qty * item.quantity))
        acc)
    []

/-- Conversion `deductionInStorageUnit`: a gram deduction is divided by 1000 before being
written back to a weight item's kilogram stock. -/
def deductionInStorageUnit (u : UnitType) (deduction : ℚ) : ℚ :=
  match u with
  | .weight => deduction / 1000
  | .quantity => deduction

/-- The sale records `handleCheckout` inserts, one per cart line; `cost` is
`calculateProductCost` evaluated on the current inventory snapshot. -/
def saleRecords (st : PageState) : List SaleRecord :=
  st.cart.map (fun item =>
    { product_id := item.product.id
      product_name := item.product.name
      qty := item.quantity
      unit_type := "quantity"
      cost := calculateProductCost st item.product.id
      selling_price := item.product.selling_price
      total := item.quantity * item.product.selling_price
      payment_method := st.selectedPaymentMethod
      customer_type := st.selectedCustomerType
      dine_in_takeout := if st.dineInEnabled then st.selectedDineInTakeout else none })

/-- Effect of the inventory-update phase on one inventory row: if the row's id
carries a deduction, and that row's update is issued (its item is found) and
does not fail, its quantity becomes the found item's quantity minus the
deduction converted to the storage unit; otherwise the row is unchanged.
`fails` injects per-item update failures of the remote service. -/
def checkoutRow (st : PageState) (deds : List (String × ℚ)) (fails : String → Bool)
    (row : InventoryItem) : InventoryItem :=
  match deds.find? (fun e => e.1 == row.id) with
  | none => row
  | some e =>
    if fails row.id then row
    else
      match findItem st row.id with
      | none => row
      | some item =>
        { row with qty := item.qty - deductionInStorageUnit item.unit_type e.2 }

/-- Apply the inventory-update phase to the whole inventory snapshot. -/
def applyDeductions (st : PageState) (deds : List (String × ℚ)) (fails : String → Bool) :
    List InventoryItem :=
  st.inventoryItems.map (checkoutRow st deds fails)

/-- Outcome of one `handleCheckout` run: whether it was reported a success,
the sale rows left persisted, the resulting inventory, and the page state
after the handler returns. -/
structure CheckoutResult where
  success : Bool
  persistedSales : List SaleRecord
  inventory : List InventoryItem
  finalState : PageState
deriving DecidableEq, Repr

/-- Source function `handleCheckout`, with the two remote failure modes injected explicitly:
`saleInsertFails` makes the `sales` insert throw before any inventory write;
`invUpdateFails` makes individual inventory updates fail. Validation failure
and the insert failure leave everything unchanged. When some (issued)
inventory update fails, the error is thrown only after `Promise.all`
settles, so the sale rows stay persisted, the non-failing updates are
applied, and the cart and selections are left untouched; only on full
success is `clearCart` run. -/
def runCheckout (st : PageState) (saleInsertFails : Bool) (invUpdateFails : String → Bool) :
    CheckoutResult :=
  if checkoutValidates st then
    if saleInsertFails then ⟨false, [], st.inventoryItems, st⟩
    else
      let deds := ingredientDeductions st
      if deds.any (fun e => (findItem st e.1).isSome && invUpdateFails e.1) then
        ⟨false, saleRecords st, applyDeductions st deds invUpdateFails, st⟩
      else
        ⟨true, saleRecords st, applyDeductions st deds invUpdateFails, clearCart st⟩
  else ⟨false, [], st.inventoryItems, st⟩

/-! Concrete states used by witnesses and counterexamples. -/

/-- The spec's worked example: ingredient Flour, 1000 g in stock (stored as
1 kg, weight type). -/
def flourRow : InventoryItem :=
  { id := "flour", name := "Flour", qty := 1, cost := 0, unit_type := .weight }

/-- Product A of the worked example: needs 200 g of flour per unit. -/
def prodA : FinishedProduct := { id := "A", name := "Product A", selling_price := 10 }

/-- Product B of the worked example: needs 300 g of flour per unit. -/
def prodB : FinishedProduct := { id := "B", name := "Product B", selling_price := 15 }

/-- Recipe line of product A: 200 g flour per unit. -/
def lineA : ProductIngredient := { id := "la", product_id := "A", item_id := "flour", qty := 200 }

/-- Recipe line of product B: 300 g flour per unit. -/
def lineB : ProductIngredient := { id := "lb", product_id := "B", item_id := "flour", qty := 300 }

/-- The spec's worked checkout state: Flour at 1000 g, cart = {A: 2, B: 1},
payment method and customer type selected, dine-in feature disabled. -/
def exSt3 : PageState :=
  { inventoryItems := [flourRow]
    productIngredients := [("A", [lineA]), ("B", [lineB])]
    cart := [⟨prodA, 2, [lineA]⟩, ⟨prodB, 1, [lineB]⟩]
    selectedPaymentMethod := "Cash"
    selectedCustomerType := "Regular"
    dineInEnabled := false
    selectedDineInTakeout := none
    selectedProduct := none
    quantity := 1 }

/-- A state in which `getMaxQuantity` goes negative: ingredient `i1` has zero
stock while another cart line (product Q) already reserves one unit of it, so
product P's available stock is −1. -/
def stNeg : PageState :=
  { inventoryItems := [{ id := "i1", name := "Ing", qty := 0, cost := 0, unit_type := .quantity }]
    productIngredients :=
      [("P", [{ id := "lp", product_id := "P", item_id := "i1", qty := 1 }]),
       ("Q", [{ id := "lq", product_id := "Q", item_id := "i1", qty := 1 }])]
    cart := [⟨{ id := "Q", name := "Other", selling_price := 1 }, 1,
             [{ id := "lq", product_id := "Q", item_id := "i1", qty := 1 }]⟩]
    selectedPaymentMethod := ""
    selectedCustomerType := ""
    dineInEnabled := false
    selectedDineInTakeout := none
    selectedProduct := none
    quantity := 1 }

/-- A state whose product P has a single recipe line with `qty = 0` on a
present ingredient with positive stock and an empty cart. -/
def stZero : PageState :=
  { inventoryItems := [{ id := "i1", name := "Ing", qty := 5, cost := 0, unit_type := .quantity }]
    productIngredients := [("P", [{ id := "lp", product_id := "P", item_id := "i1", qty := 0 }])]
    cart := []
    selectedPaymentMethod := ""
    selectedCustomerType := ""
    dineInEnabled := false
    selectedDineInTakeout := none
    selectedProduct := none
    quantity := 1 }

/-- A state with product P selected at quantity `getMaxQuantity = 0` (P has no
recipe lines), exercising `addToCart` at exactly the computed maximum. -/
def stC4 : PageState :=
  { inventoryItems := []
    productIngredients := []
    cart := []
    selectedPaymentMethod := "Cash"
    selectedCustomerType := "Regular"
    dineInEnabled := false
    selectedDineInTakeout := none
    selectedProduct := some { id := "P", name := "Product P", selling_price := 5 }
    quantity := 0 }

/-- A state exercising a successful `addToCart`: product B already in the
cart reserving 300 g of flour, product A selected at quantity 3, which is
exactly `getMaxQuantity` for A (`⌊(1000 − 300) / 200⌋ = 3`). -/
def stAdd : PageState :=
  { inventoryItems := [flourRow]
    productIngredients := [("A", [lineA]), ("B", [lineB])]
    cart := [⟨prodB, 1, [lineB]⟩]
    selectedPaymentMethod := "Cash"
    selectedCustomerType := "Regular"
    dineInEnabled := false
    selectedDineInTakeout := none
    selectedProduct := some prodA
    quantity := 3 }

/-! Spec-side reference definitions, phrased from the specification's words,
to be compared with the embedded source functions. -/

/-- Modelled from the spec: `possibleUnitsFromThisIngredient`, the
per-recipe-line ratio `floor((stock − reservedByOtherCartLines) /
quantityPerUnit)` of §4.2 (0 is never consulted for a missing ingredient
under the claims that use it). -/
def linePossible (st : PageState) (productId : String) (ing : ProductIngredient) : ℤ :=
  match findItem st ing.item_id with
  | none => 0
  | some item =>
    ⌊(getInventoryInIngredientUnit item - cartReserved st productId ing.item_id) / ing.qty⌋

/-- Modelled from the spec: `productCost(productId) = Σ over recipe lines
(ingredient.costPerBaseUnit × quantityPerUnit)` of §4.3, with a missing
ingredient contributing nothing. -/
def specProductCost (st : PageState) (productId : String) : ℚ :=
  ((lookupPI st productId).map (fun ing =>
    match findItem st ing.item_id with
    | some item => item.cost * ing.qty
    | none => 0)).sum

/-- Value stored in the `ingredientDeductions` record under `itemId`
(0 when the key is absent). -/
def dedLookup : List (String × ℚ) → String → ℚ
  | [], _ => 0
  | e :: rest, itemId => if e.1 == itemId then e.2 else dedLookup rest itemId

/-- Modelled from the spec: the aggregate deduction of §4.5 step 2, the sum
over all cart lines of that product's recipe quantity for `itemId` times the
line's quantity. -/
def totalRequired (st : PageState) (itemId : String) : ℚ :=
  (st.cart.map (fun c =>
    (((lookupPI st c.product.id).filter (fun ing => ing.item_id == itemId)).map
      (fun ing => ing.qty * c.quantity)).sum)).sum

/-- The list of product ids carried by the cart lines. -/
def cartIds (cart : List CartItem) : List String :=
  cart.map (fun c => c.product.id)

/-- Replace the quantity of every cart line for `productId` by `v`, leaving
all other lines untouched. -/
def setOwnQuantity (cart : List CartItem) (productId : String) (v : ℚ) : List CartItem :=
  cart.map (fun c => if c.product.id == productId then { c with quantity := v } else c)

/-! Helper lemmas shared by the claim theorems. -/

/-- Folding `+ f a` over a list equals the initial value plus the sum of the
mapped list (the `reduce` pattern of the source). -/
theorem foldl_add_eq_sum {α : Type} (f : α → ℚ) (l : List α) (init : ℚ) :
    l.foldl (fun t a => t + f a) init = init + (l.map f).sum := by
  induction l generalizing init with
  | nil => simp
  | cons a l ih => simp [ih, add_assoc]

/-- With pairwise-distinct ids, `find?` on an id returns the row itself. -/
theorem find?_id_eq_self {l : List InventoryItem}
    (hnd : (l.map InventoryItem.id).Nodup) {r : InventoryItem} (hr : r ∈ l) :
    l.find? (fun i => i.id == r.id) = some r := by
  induction l with
  | nil => cases hr
  | cons b rest ih =>
    rcases List.mem_cons.mp hr with h | h
    · subst h
      simp [List.find?_cons]
    · have hb : ¬(b.id == r.id) = true := by
        simp only [List.map_cons, List.nodup_cons] at hnd
        intro hbeq
        exact hnd.1 (beq_iff_eq.mp hbeq ▸ List.mem_map_of_mem InventoryItem.id h)
      simp only [List.find?_cons, hb]
      · exact ih (by simpa using (List.nodup_cons.mp (by simpa using hnd)).2) h

/-- Converting a zero deduction to the storage unit gives zero. -/
theorem deductionInStorageUnit_zero (u : UnitType) : deductionInStorageUnit u 0 = 0 := by
  cases u <;> simp [deductionInStorageUnit]

/-! C7. -/

/-- C7: for every gram value `g`, writing it to storage with the `/ 1000`
conversion (`deductionInStorageUnit` on a weight item) and reading it back
with the `× 1000` conversion (`getInventoryInIngredientUnit`) reproduces `g`
exactly over exact rational arithmetic. -/
theorem weight_roundtrip_identity (g : ℚ) (id name : String) (cost : ℚ) :
    getInventoryInIngredientUnit
      { id := id, name := name, qty := deductionInStorageUnit UnitType.weight g,
        cost := cost, unit_type := UnitType.weight } = g := by
  show g / 1000 * 1000 = g
  exact div_mul_cancel₀ g (by norm_num)

/-! C8. -/

/-- C8: the cost written into every persisted sale record equals the spec's
cost roll-up `Σ over recipe lines (ingredient cost × quantityPerUnit)`,
computed from the inventory snapshot at sale time (`calculateProductCost`,
invoked inside `saleRecords`), not read from any stored per-product field. -/
theorem sale_record_cost_rollup (st : PageState) :
    (∀ productId, calculateProductCost st productId = specProductCost st productId)
    ∧ (saleRecords st).map SaleRecord.cost
        = st.cart.map (fun c => specProductCost st c.product.id) := by
  have hcalc : ∀ productId, calculateProductCost st productId = specProductCost st productId := by
    intro productId
    unfold calculateProductCost specProductCost
    rw [foldl_add_eq_sum]
    simp
  refine ⟨hcalc, ?_⟩
  unfold saleRecords
  rw [List.map_map]
  exact List.map_congr_left (fun c _ => hcalc c.product.id)

/-! C5. -/

/-- The ingredient map is untouched by a cart replacement. -/
theorem lookupPI_setCart (st : PageState) (newCart : List CartItem) (productId : String) :
    lookupPI { st with cart := newCart } productId = lookupPI st productId := rfl

/-- The inventory snapshot is untouched by a cart replacement. -/
theorem findItem_setCart (st : PageState) (newCart : List CartItem) (itemId : String) :
    findItem { st with cart := newCart } itemId = findItem st itemId := rfl

/-- Filtering out the lines for `productId` ignores quantity changes made to
exactly those lines. -/
theorem filter_setOwnQuantity (cart : List CartItem) (productId : String) (v : ℚ) :
    (setOwnQuantity cart productId v).filter (fun c => !(c.product.id == productId))
      = cart.filter (fun c => !(c.product.id == productId)) := by
  induction cart with
  | nil => rfl
  | cons c rest ih =>
    unfold setOwnQuantity at ih ⊢
    rw [List.map_cons, List.filter_cons, List.filter_cons]
    by_cases h : (c.product.id == productId) = true
    · rw [if_pos h]
      have h1 : ((({ c with quantity := v } : CartItem).product.id == productId) : Bool)
          = true := h
      rw [if_neg (by rw [h1]; simp), if_neg (by rw [h]; simp)]
      exact ih
    · rw [if_neg h, if_pos (by rw [Bool.not_eq_true] at h; rw [h]; simp),
        if_pos (by rw [Bool.not_eq_true] at h; rw [h]; simp)]
      rw [ih]

/-- The reservation sum is unchanged when the evaluated product's own cart
lines change quantity. -/
theorem cartReserved_setOwnQuantity (st : PageState) (productId itemId : String) (v : ℚ) :
    cartReserved { st with cart := setOwnQuantity st.cart productId v } productId itemId
      = cartReserved st productId itemId := by
  unfold cartReserved
  rw [show ({ st with cart := setOwnQuantity st.cart productId v } : PageState).cart
      = setOwnQuantity st.cart productId v from rfl]
  rw [filter_setOwnQuantity]
  rfl

/-- The availability loop is unchanged when the evaluated product's own cart
lines change quantity. -/
theorem maxQtyLoop_setOwnQuantity (st : PageState) (productId : String) (v : ℚ) :
    ∀ (l : List ProductIngredient) (acc : Option ℤ),
      maxQtyLoop { st with cart := setOwnQuantity st.cart productId v } productId l acc
        = maxQtyLoop st productId l acc := by
  intro l
  induction l with
  | nil => intro acc; rfl
  | cons ing rest ih =>
    intro acc
    unfold maxQtyLoop
    simp only [findItem_setCart, cartReserved_setOwnQuantity]
    cases findItem st ing.item_id with
    | none => rfl
    | some item =>
      dsimp only
      by_cases hq : ing.qty = 0
      · rw [if_pos hq, if_pos hq]
      · rw [if_neg hq, if_neg hq, ih]

/-- C5: `getMaxQuantity` and `canSellProduct` for a product are independent of
the quantity carried by that product's own cart lines — reservations are
summed only over cart lines whose product id differs, so overwriting the
product's own line quantity with any value `v` leaves both results unchanged. -/
theorem self_exclusion (st : PageState) (productId : String) (v q : ℚ) :
    getMaxQuantity { st with cart := setOwnQuantity st.cart productId v } productId
        = getMaxQuantity st productId
    ∧ canSellProduct { st with cart := setOwnQuantity st.cart productId v } productId q
        = canSellProduct st productId q := by
  constructor
  · unfold getMaxQuantity
    simp only [lookupPI_setCart, maxQtyLoop_setOwnQuantity]
  · unfold canSellProduct
    simp only [lookupPI_setCart, findItem_setCart, cartReserved_setOwnQuantity]

/-! C9. -/

/-- Overwriting the first matching line's quantity keeps the cart's product
ids unchanged. -/
theorem cartIds_updateFirstQty (cart : List CartItem) (productId : String) (q : ℚ) :
    cartIds (updateFirstQty cart productId q) = cartIds cart := by
  induction cart with
  | nil => rfl
  | cons c rest ih =>
    unfold updateFirstQty
    by_cases h : (c.product.id == productId) = true
    · rw [if_pos h]; rfl
    · rw [if_neg h]
      unfold cartIds at ih ⊢
      rw [List.map_cons, List.map_cons, ih]

/-- Overwriting every matching line's quantity keeps the cart's product ids
unchanged. -/
theorem cartIds_map_overwrite (cart : List CartItem) (productId : String) (q : ℚ) :
    cartIds (cart.map (fun c =>
        if c.product.id == productId then { c with quantity := q } else c))
      = cartIds cart := by
  unfold cartIds
  rw [List.map_map]
  refine List.map_congr_left (fun c _ => ?_)
  show (if c.product.id == productId then ({ c with quantity := q } : CartItem) else c).product.id
    = c.product.id
  by_cases h : (c.product.id == productId) = true
  · rw [if_pos h]
  · rw [if_neg h]

/-- C9: every cart operation preserves the invariant that the cart holds at
most one line per product id — `addToCart` overwrites the existing line
instead of appending a duplicate, `updateCartQuantity` with a non-positive
quantity removes the line entirely (it equals the `removeFromCart` filter),
and `removeFromCart`/`clearCart` only shrink the cart. -/
theorem cart_unique_lines (st : PageState) (productId : String) (newQuantity : ℚ)
    (h : (cartIds st.cart).Nodup) :
    (cartIds (addToCart st).cart).Nodup
    ∧ (cartIds (updateCartQuantity st productId newQuantity).cart).Nodup
    ∧ (cartIds (removeFromCart st productId).cart).Nodup
    ∧ (cartIds (clearCart st).cart).Nodup
    ∧ (newQuantity ≤ 0 →
        (updateCartQuantity st productId newQuantity).cart
          = st.cart.filter (fun c => !(c.product.id == productId))) := by
  have hfilter : ∀ pid : String,
      (cartIds (st.cart.filter (fun c => !(c.product.id == pid)))).Nodup := by
    intro pid
    exact List.Nodup.sublist ((List.filter_sublist st.cart).map _) h
  have hrem : ∀ pid : String, (cartIds (removeFromCart st pid).cart).Nodup := fun pid =>
    hfilter pid
  have hadd : (cartIds (addToCart st).cart).Nodup := by
    unfold addToCart
    cases hsel : st.selectedProduct with
    | none => exact h
    | some p =>
      dsimp only
      by_cases h1 : st.quantity ≤ 0
      · rw [if_pos h1]; exact h
      · rw [if_neg h1]
        by_cases h2 : (getMaxQuantity st p.id : ℚ) < st.quantity
        · rw [if_pos h2]; exact h
        · rw [if_neg h2]
          by_cases h3 : (lookupPI st p.id).isEmpty = true
          · rw [if_pos h3]; exact h
          · rw [if_neg h3]
            by_cases h4 : st.cart.any (fun c => c.product.id == p.id) = true
            · rw [if_pos h4, cartIds_updateFirstQty]
              exact h
            · rw [if_neg h4]
              have hnotin : p.id ∉ cartIds st.cart := by
                intro hmem
                rcases List.mem_map.mp hmem with ⟨c, hc, hcid⟩
                rw [Bool.not_eq_true] at h4
                have := List.any_eq_false.mp h4 c hc
                exact this (beq_iff_eq.mpr hcid)
              unfold cartIds
              rw [List.map_append]
              refine List.Nodup.append h (by simp) ?_
              intro a ha hb
              simp only [List.map_cons, List.map_nil, List.mem_singleton] at hb
              exact hnotin (hb ▸ ha)
  have hupd : (cartIds (updateCartQuantity st productId newQuantity).cart).Nodup := by
    unfold updateCartQuantity
    by_cases hq : newQuantity ≤ 0
    · rw [if_pos hq]; exact hrem productId
    · rw [if_neg hq]
      by_cases hmax : (getMaxQuantity st productId : ℚ) < newQuantity
      · rw [if_pos hmax]; exact h
      · rw [if_neg hmax]
        dsimp only
        rw [cartIds_map_overwrite]
        exact h
  refine ⟨hadd, hupd, hrem productId, by simp [clearCart, cartIds], ?_⟩
  intro hq
  unfold updateCartQuantity
  rw [if_pos hq]
  rfl

/-- Witness for C9 at the worked two-line cart, with `updateCartQuantity`
driven to the removal branch by a zero quantity. -/
theorem cart_unique_lines_witness :
    (cartIds exSt3.cart).Nodup
    ∧ (updateCartQuantity exSt3 "A" 0).cart
        = exSt3.cart.filter (fun c => !(c.product.id == "A")) :=
  ⟨by decide, (cart_unique_lines exSt3 "A" 0 (by decide)).2.2.2.2 (le_refl 0)⟩

/-! C10. -/

/-- C10: `canSellProduct` fails only for an empty recipe, a missing
ingredient, or a recipe line whose converted stock is strictly below
`quantityPerUnit × qty` plus other-cart reservations; it does not treat
`quantityPerUnit = 0` as a failure, so in the concrete state `stZero`
(product P whose single recipe line has quantity 0 on a stocked ingredient)
`canSellProduct` succeeds at every positive quantity while `getMaxQuantity`
is 0. -/
theorem canSell_failure_causes :
    (∀ (st : PageState) (productId : String) (q : ℚ),
      canSellProduct st productId q = false →
        lookupPI st productId = []
        ∨ ∃ ing ∈ lookupPI st productId,
            findItem st ing.item_id = none
            ∨ ∃ item, findItem st ing.item_id = some item
                ∧ getInventoryInIngredientUnit item
                    < ing.qty * q + cartReserved st productId ing.item_id)
    ∧ (∀ q : ℚ, 0 < q → canSellProduct stZero "P" q = true)
    ∧ getMaxQuantity stZero "P" = 0 := by
  refine ⟨?_, ?_, by decide⟩
  · intro st productId q hfail
    unfold canSellProduct at hfail
    by_cases he : (lookupPI st productId).isEmpty = true
    · exact Or.inl (List.isEmpty_iff.mp he)
    · rw [if_neg he] at hfail
      rcases List.all_eq_false.mp hfail with ⟨ing, hmem, hing⟩
      refine Or.inr ⟨ing, hmem, ?_⟩
      cases hfind : findItem st ing.item_id with
      | none => exact Or.inl rfl
      | some item =>
        rw [hfind] at hing
        simp only [decide_eq_true_eq] at hing
        exact Or.inr ⟨item, rfl, lt_of_not_le hing⟩
  · intro q hq
    have hred : canSellProduct stZero "P" q
        = (decide ((0 : ℚ) * q + 0 ≤ 5) && true) := rfl
    rw [hred, Bool.and_true]
    simp only [zero_mul, zero_add, decide_eq_true_eq]
    norm_num

/-- Witness for C10: product P of `stZero` can nominally be sold at quantity
1 even though its computed maximum is 0. -/
theorem canSell_failure_causes_witness :
    getMaxQuantity stZero "P" = 0 ∧ canSellProduct stZero "P" 1 = true :=
  ⟨canSell_failure_causes.2.2, canSell_failure_causes.2.1 1 (by norm_num)⟩

/-! C1. -/

/-- The availability loop returns 0 whenever some remaining recipe line has a
missing ingredient or a zero quantity, regardless of the accumulator. -/
theorem maxQtyLoop_eq_zero_of_bad (st : PageState) (productId : String) :
    ∀ (l : List ProductIngredient) (acc : Option ℤ),
      (∃ ing ∈ l, findItem st ing.item_id = none ∨ ing.qty = 0) →
      maxQtyLoop st productId l acc = 0 := by
  intro l
  induction l with
  | nil =>
    intro acc h
    rcases h with ⟨ing, hm, _⟩
    cases hm
  | cons a rest ih =>
    intro acc h
    unfold maxQtyLoop
    cases hf : findItem st a.item_id with
    | none => rfl
    | some item =>
      dsimp only
      by_cases hq : a.qty = 0
      · rw [if_pos hq]
      · rw [if_neg hq]
        apply ih
        rcases h with ⟨ing, hm, hbad⟩
        rcases List.mem_cons.mp hm with rfl | hrest
        · rcases hbad with hnone | hzero
          · rw [hf] at hnone; cases hnone
          · exact absurd hzero hq
        · exact ⟨ing, hrest, hbad⟩

/-- On an all-good suffix the availability loop computes the running minimum
of the per-line ratios. -/
theorem maxQtyLoop_min (st : PageState) (productId : String) :
    ∀ (l : List ProductIngredient) (m : ℤ),
      (∀ ing ∈ l, (findItem st ing.item_id).isSome = true ∧ ing.qty ≠ 0) →
      maxQtyLoop st productId l (some m)
        = (l.map (linePossible st productId)).foldl min m := by
  intro l
  induction l with
  | nil => intro m _; rfl
  | cons a rest ih =>
    intro m h
    obtain ⟨hsome, hq⟩ := h a (List.mem_cons_self a rest)
    obtain ⟨item, hf⟩ := Option.isSome_iff_exists.mp hsome
    unfold maxQtyLoop
    rw [hf]
    dsimp only
    rw [if_neg hq, ih _ (fun ing hm => h ing (List.mem_cons_of_mem a hm)),
      List.map_cons, List.foldl_cons]
    congr 1
    unfold linePossible
    rw [hf]

/-- C1: `getMaxQuantity` is 0 for a product with no recipe lines and 0 when
some recipe line's ingredient is missing from the inventory snapshot or has
`quantityPerUnit = 0`; otherwise it is the minimum over the recipe lines of
`⌊(converted stock − other-cart reservations) / quantityPerUnit⌋`. -/
theorem getMaxQuantity_min_formula (st : PageState) (productId : String) :
    (lookupPI st productId = [] → getMaxQuantity st productId = 0)
    ∧ ((∃ ing ∈ lookupPI st productId,
          findItem st ing.item_id = none ∨ ing.qty = 0) →
        getMaxQuantity st productId = 0)
    ∧ (∀ (a : ProductIngredient) (l : List ProductIngredient),
        lookupPI st productId = a :: l →
        (∀ ing ∈ a :: l, (findItem st ing.item_id).isSome = true ∧ ing.qty ≠ 0) →
        getMaxQuantity st productId
          = (l.map (linePossible st productId)).foldl min (linePossible st productId a)) := by
  refine ⟨?_, ?_, ?_⟩
  · intro h
    unfold getMaxQuantity
    rw [h]
    rfl
  · intro hex
    unfold getMaxQuantity
    by_cases he : (lookupPI st productId).isEmpty = true
    · rw [if_pos he]
    · rw [if_neg he]
      exact maxQtyLoop_eq_zero_of_bad st productId _ none hex
  · intro a l hal hgood
    unfold getMaxQuantity
    rw [hal]
    rw [if_neg (by simp)]
    obtain ⟨hsome, hq⟩ := hgood a (List.mem_cons_self a l)
    obtain ⟨item, hf⟩ := Option.isSome_iff_exists.mp hsome
    unfold maxQtyLoop
    rw [hf]
    dsimp only
    rw [if_neg hq, maxQtyLoop_min st productId l _
      (fun ing hm => hgood ing (List.mem_cons_of_mem a hm))]
    congr 1
    unfold linePossible
    rw [hf]

section

attribute [local semireducible] Rat.mul Rat.add Rat.sub Rat.inv

/-- Witness for C1 at the worked example: product A's single flour line gives
`⌊(1000 − 300) / 200⌋ = 3`. -/
theorem getMaxQuantity_min_formula_witness :
    lookupPI exSt3 "A" = [lineA]
    ∧ (∀ ing ∈ [lineA], (findItem exSt3 ing.item_id).isSome = true ∧ ing.qty ≠ 0)
    ∧ getMaxQuantity exSt3 "A"
        = (([] : List ProductIngredient).map (linePossible exSt3 "A")).foldl min
            (linePossible exSt3 "A" lineA) :=
  ⟨by decide, by decide,
    (getMaxQuantity_min_formula exSt3 "A").2.2 lineA [] (by decide) (by decide)⟩

end

/-! C2. -/

/-- The availability loop yields a non-negative result when every remaining
recipe line has a non-negative quantity and reservations within stock, and
the accumulator is non-negative. -/
theorem maxQtyLoop_nonneg (st : PageState) (productId : String) :
    ∀ (l : List ProductIngredient) (acc : Option ℤ),
      (∀ ing ∈ l, 0 ≤ ing.qty ∧
        ∀ item ∈ st.inventoryItems, findItem st ing.item_id = some item →
          cartReserved st productId ing.item_id ≤ getInventoryInIngredientUnit item) →
      (∀ m, acc = some m → 0 ≤ m) →
      0 ≤ maxQtyLoop st productId l acc := by
  intro l
  induction l with
  | nil =>
    intro acc _ hacc
    unfold maxQtyLoop
    cases acc with
    | none => exact le_refl 0
    | some m => exact hacc m rfl
  | cons a rest ih =>
    intro acc hl hacc
    unfold maxQtyLoop
    cases hf : findItem st a.item_id with
    | none => exact le_refl 0
    | some item =>
      dsimp only
      by_cases hq : a.qty = 0
      · rw [if_pos hq]
      · rw [if_neg hq]
        refine ih _ (fun ing hm => hl ing (List.mem_cons_of_mem a hm)) ?_
        intro m hm
        obtain ⟨hqa, hres⟩ := hl a (List.mem_cons_self a rest)
        have hitem : item ∈ st.inventoryItems := List.mem_of_find?_eq_some hf
        have hr := hres item hitem hf
        have hpos : (0 : ℚ) < a.qty := lt_of_le_of_ne hqa (Ne.symm hq)
        have hfloor : 0 ≤
            ⌊(getInventoryInIngredientUnit item - cartReserved st productId a.item_id) / a.qty⌋ :=
          Int.floor_nonneg.mpr (div_nonneg (sub_nonneg.mpr hr) (le_of_lt hpos))
        cases acc with
        | none =>
          injection hm with hm
          exact hm ▸ hfloor
        | some m0 =>
          injection hm with hm
          exact hm ▸ le_min (hacc m0 rfl) hfloor

/-- C2 (amended): `getMaxQuantity` always returns an integer (its codomain),
and the integer is non-negative provided every recipe line of the product has
a non-negative `quantityPerUnit` and other-cart reservations that do not
exceed the ingredient's converted stock; on unrestricted inputs the value may
be negative (see the counterexample). -/
theorem getMaxQuantity_nonneg (st : PageState) (productId : String)
    (h : ∀ ing ∈ lookupPI st productId, 0 ≤ ing.qty ∧
      ∀ item ∈ st.inventoryItems, findItem st ing.item_id = some item →
        cartReserved st productId ing.item_id ≤ getInventoryInIngredientUnit item) :
    0 ≤ getMaxQuantity st productId := by
  unfold getMaxQuantity
  by_cases he : (lookupPI st productId).isEmpty = true
  · rw [if_pos he]
  · rw [if_neg he]
    exact maxQtyLoop_nonneg st productId _ none h (fun m hm => nomatch hm)

section

attribute [local semireducible] Rat.mul Rat.add Rat.sub Rat.inv

/-- C2 counterexample: in `stNeg` another cart line over-reserves product P's
only ingredient, and `getMaxQuantity` returns the negative integer −1. -/
theorem getMaxQuantity_negative_counterexample :
    getMaxQuantity stNeg "P" = -1 ∧ ¬(0 ≤ getMaxQuantity stNeg "P") := by decide

/-- Witness for the amended C2 at the worked example state. -/
theorem getMaxQuantity_nonneg_witness :
    (∀ ing ∈ lookupPI exSt3 "A", 0 ≤ ing.qty ∧
      ∀ item ∈ exSt3.inventoryItems, findItem exSt3 ing.item_id = some item →
        cartReserved exSt3 "A" ing.item_id ≤ getInventoryInIngredientUnit item)
    ∧ 0 ≤ getMaxQuantity exSt3 "A" :=
  ⟨by decide, getMaxQuantity_nonneg exSt3 "A" (by decide)⟩

end

/-! C3. -/

/-- Applying `findItem` to a row's own id returns the row when ids are distinct. -/
theorem findItem_self (st : PageState) {r : InventoryItem}
    (hnd : (st.inventoryItems.map InventoryItem.id).Nodup) (hr : r ∈ st.inventoryItems) :
    findItem st r.id = some r :=
  find?_id_eq_self hnd hr

/-- A key absent from the deduction record looks up to 0. -/
theorem dedLookup_of_find?_none {deds : List (String × ℚ)} {i : String}
    (h : deds.find? (fun e => e.1 == i) = none) : dedLookup deds i = 0 := by
  induction deds with
  | nil => rfl
  | cons e rest ih =>
    unfold dedLookup
    by_cases hp : (e.1 == i) = true
    · simp only [List.find?_cons, hp] at h
      cases h
    · rw [if_neg hp]
      rw [Bool.not_eq_true] at hp
      simp only [List.find?_cons, hp] at h
      exact ih h

/-- A key found in the deduction record looks up to the found value. -/
theorem dedLookup_of_find?_some {deds : List (String × ℚ)} {i : String} {e : String × ℚ}
    (h : deds.find? (fun e => e.1 == i) = some e) : dedLookup deds i = e.2 := by
  induction deds with
  | nil => cases h
  | cons e0 rest ih =>
    unfold dedLookup
    by_cases hp : (e0.1 == i) = true
    · simp only [List.find?_cons, hp] at h
      injection h with h
      rw [if_pos hp, h]
    · rw [if_neg hp]
      rw [Bool.not_eq_true] at hp
      simp only [List.find?_cons, hp] at h
      exact ih h

/-- Upserting `v` under key `k` adds `v` to the looked-up value of `k` and
leaves every other key's value unchanged. -/
theorem dedLookup_upsertAdd (l : List (String × ℚ)) (k : String) (v : ℚ) (i : String) :
    dedLookup (upsertAdd l k v) i = dedLookup l i + (if i = k then v else 0) := by
  induction l with
  | nil =>
    simp only [upsertAdd, dedLookup]
    by_cases h : i = k
    · subst h
      simp
    · rw [if_neg (fun hb => h (beq_iff_eq.mp hb).symm), if_neg h, add_zero]
  | cons e rest ih =>
    unfold upsertAdd
    by_cases hk : (e.1 == k) = true
    · rw [if_pos hk]
      unfold dedLookup
      by_cases hi : (e.1 == i) = true
      · have hik : i = k := by
          rw [← beq_iff_eq.mp hi, ← beq_iff_eq.mp hk]
        rw [if_pos hi, if_pos hi, if_pos hik]
      · have hik : ¬ i = k := by
          intro hh
          exact hi (beq_iff_eq.mpr ((beq_iff_eq.mp hk).trans hh.symm))
        rw [if_neg hi, if_neg hi, if_neg hik, add_zero]
    · rw [if_neg hk]
      unfold dedLookup
      by_cases hi : (e.1 == i) = true
      · have hik : ¬ i = k := by
          intro hh
          exact hk (beq_iff_eq.mpr ((beq_iff_eq.mp hi).trans hh))
        rw [if_pos hi, if_pos hi, if_neg hik, add_zero]
      · rw [if_neg hi, if_neg hi]
        exact ih

/-- Folding one product's recipe lines into the deduction record adds, under
each key, the sum of that product's matching line requirements. -/
theorem dedLookup_foldl_lines (cq : ℚ) (i : String) :
    ∀ (lines : List ProductIngredient) (acc : List (String × ℚ)),
      dedLookup (lines.foldl (fun a ing => upsertAdd a ing.item_id (ing.qty * cq)) acc) i
        = dedLookup acc i
          + ((lines.filter (fun ing => ing.item_id == i)).map (fun ing => ing.qty * cq)).sum := by
  intro lines
  induction lines with
  | nil => intro acc; simp
  | cons a rest ih =>
    intro acc
    rw [List.foldl_cons, ih, dedLookup_upsertAdd, List.filter_cons]
    by_cases h : (a.item_id == i) = true
    · rw [if_pos h, List.map_cons, List.sum_cons, if_pos (beq_iff_eq.mp h).symm]
      ring
    · rw [if_neg h, if_neg (fun hh : i = a.item_id => h (beq_iff_eq.mpr hh.symm)), add_zero]

/-- The deduction record built by `handleCheckout` stores, under every
ingredient id, exactly the spec's aggregate requirement over all cart lines. -/
theorem dedLookup_deductions (st : PageState) (i : String) :
    dedLookup (ingredientDeductions st) i = totalRequired st i := by
  unfold ingredientDeductions totalRequired
  suffices h : ∀ (cs : List CartItem) (acc : List (String × ℚ)),
      dedLookup (cs.foldl (fun acc item => (lookupPI st item.product.id).foldl
        (fun acc2 ing => upsertAdd acc2 ing.item_id (ing.qty * item.quantity)) acc) acc) i
        = dedLookup acc i + (cs.map (fun c =>
            (((lookupPI st c.product.id).filter (fun ing => ing.item_id == i)).map
              (fun ing => ing.qty * c.quantity)).sum)).sum by
    rw [h st.cart []]
    show (0 : ℚ) + _ = _
    rw [zero_add]
  intro cs
  induction cs with
  | nil => intro acc; simp
  | cons c rest ih =>
    intro acc
    rw [List.foldl_cons, ih, dedLookup_foldl_lines, List.map_cons, List.sum_cons]
    ring

section

attribute [local semireducible] Rat.mul Rat.add Rat.sub Rat.inv

/-- C3: with pairwise-distinct inventory ids, the checkout's inventory-update
phase decrements each inventory row exactly once, by the total requirement of
the whole cart for that ingredient converted to the storage unit; at the
spec's worked example (Flour 1000 g, cart {A: 2, B: 1}) the checkout passes
validation and leaves Flour at 300 g. -/
theorem checkout_aggregated_deduction :
    (∀ (st : PageState) (r : InventoryItem),
        (st.inventoryItems.map InventoryItem.id).Nodup → r ∈ st.inventoryItems →
        (checkoutRow st (ingredientDeductions st) (fun _ => false) r).qty
          = r.qty - deductionInStorageUnit r.unit_type (totalRequired st r.id))
    ∧ (runCheckout exSt3 false (fun _ => false)).success = true
    ∧ ((runCheckout exSt3 false (fun _ => false)).inventory.find?
          (fun i => i.id == "flour")).map getInventoryInIngredientUnit = some 300 := by
  refine ⟨?_, by decide, by decide⟩
  intro st r hnd hr
  unfold checkoutRow
  cases hded : (ingredientDeductions st).find? (fun e => e.1 == r.id) with
  | none =>
    rw [← dedLookup_deductions, dedLookup_of_find?_none hded,
      deductionInStorageUnit_zero, sub_zero]
  | some e =>
    dsimp only
    rw [if_neg (by simp), findItem_self st hnd hr]
    dsimp only
    rw [← dedLookup_deductions, dedLookup_of_find?_some hded]

/-- Witness for C3's universally quantified part at the worked example's
flour row. -/
theorem checkout_aggregated_deduction_witness :
    (exSt3.inventoryItems.map InventoryItem.id).Nodup
    ∧ flourRow ∈ exSt3.inventoryItems
    ∧ (checkoutRow exSt3 (ingredientDeductions exSt3) (fun _ => false) flourRow).qty
        = flourRow.qty - deductionInStorageUnit flourRow.unit_type
            (totalRequired exSt3 flourRow.id) :=
  ⟨by decide, by decide,
    checkout_aggregated_deduction.1 exSt3 flourRow (by decide) (by decide)⟩

end

/-! C4. -/

/-- C4 (amended): with a product selected whose computed maximum is at least
1, `addToCart` at quantity exactly `getMaxQuantity` succeeds — the existing
line is overwritten or a new line is appended, the modal closes, and the
payment/customer/dine-in selections are untouched (the resulting state keeps
every other field of `st`); quantity `getMaxQuantity + 1` and any
non-positive quantity are rejected with the whole state unchanged. When the
computed maximum is 0, quantity `= getMaxQuantity` is itself non-positive
and is rejected (see the counterexample), which is why the success case
needs `1 ≤ getMaxQuantity`. -/
theorem addToCart_boundary (st : PageState) (p : FinishedProduct)
    (hp : st.selectedProduct = some p) :
    (1 ≤ getMaxQuantity st p.id → st.quantity = (getMaxQuantity st p.id : ℚ) →
      addToCart st =
        { st with
          cart :=
            if st.cart.any (fun c => c.product.id == p.id) then
              updateFirstQty st.cart p.id st.quantity
            else st.cart ++ [⟨p, st.quantity, lookupPI st p.id⟩]
          selectedProduct := none
          quantity := 1 })
    ∧ (st.quantity = (getMaxQuantity st p.id : ℚ) + 1 → addToCart st = st)
    ∧ (st.quantity ≤ 0 → addToCart st = st) := by
  have hqle : ∀ h : st.quantity ≤ 0, addToCart st = st := by
    intro h
    unfold addToCart
    rw [hp]
    dsimp only
    rw [if_pos h]
  refine ⟨?_, ?_, hqle⟩
  · intro hmax hq
    have hq0 : ¬ st.quantity ≤ 0 := by
      rw [hq]
      push_neg
      exact_mod_cast lt_of_lt_of_le zero_lt_one hmax
    have hqmax : ¬ (getMaxQuantity st p.id : ℚ) < st.quantity := by
      rw [hq]
      exact lt_irrefl _
    have hne : ¬ (lookupPI st p.id).isEmpty = true := by
      intro he
      have h0 : getMaxQuantity st p.id = 0 := by
        unfold getMaxQuantity
        rw [if_pos he]
      rw [h0] at hmax
      exact absurd hmax (by norm_num)
    unfold addToCart
    rw [hp]
    dsimp only
    rw [if_neg hq0, if_neg hqmax, if_neg hne]
  · intro hq
    by_cases h0 : st.quantity ≤ 0
    · exact hqle h0
    · have hqmax : (getMaxQuantity st p.id : ℚ) < st.quantity := by
        rw [hq]
        exact lt_add_one _
      unfold addToCart
      rw [hp]
      dsimp only
      rw [if_neg h0, if_pos hqmax]

section

attribute [local semireducible] Rat.mul Rat.add Rat.sub Rat.inv

/-- C4 counterexample: in `stC4` product P is selected at quantity exactly
`getMaxQuantity stC4 "P" = 0`, yet `addToCart` rejects it — the state (and in
particular the empty cart) is left unchanged, so a call at exactly the
computed maximum does not always succeed. -/
theorem addToCart_at_exact_max_rejected :
    stC4.selectedProduct = some { id := "P", name := "Product P", selling_price := 5 }
    ∧ stC4.quantity = (getMaxQuantity stC4 "P" : ℚ)
    ∧ addToCart stC4 = stC4
    ∧ stC4.cart = [] := by decide

/-- Witness for the amended C4: in `stAdd` product A is selected at quantity
3 = `getMaxQuantity` ≥ 1 and the add succeeds, appending the new line. -/
theorem addToCart_boundary_witness :
    stAdd.selectedProduct = some prodA
    ∧ 1 ≤ getMaxQuantity stAdd prodA.id
    ∧ stAdd.quantity = (getMaxQuantity stAdd prodA.id : ℚ)
    ∧ addToCart stAdd =
        { stAdd with
          cart :=
            if stAdd.cart.any (fun c => c.product.id == prodA.id) then
              updateFirstQty stAdd.cart prodA.id stAdd.quantity
            else stAdd.cart ++ [⟨prodA, stAdd.quantity, lookupPI stAdd prodA.id⟩]
          selectedProduct := none
          quantity := 1 } :=
  ⟨rfl, by decide, by decide,
    (addToCart_boundary stAdd prodA rfl).1 (by decide) (by decide)⟩

end

/-! C6. -/

/-- C6: when checkout validation passes, the sale insert succeeds, and at
least one issued inventory update fails, `handleCheckout` reports failure
while the already-inserted sale records stay persisted (no compensating
deletion happens in this logic) and the page state — cart and all
selections — is left exactly as it was; the cart and selections are cleared
(via `clearCart`) only on a fully successful run. -/
theorem checkout_no_rollback (st : PageState) (invUpdateFails : String → Bool)
    (hv : checkoutValidates st = true)
    (hf : (ingredientDeductions st).any
        (fun e => (findItem st e.1).isSome && invUpdateFails e.1) = true) :
    (runCheckout st false invUpdateFails).success = false
    ∧ (runCheckout st false invUpdateFails).persistedSales = saleRecords st
    ∧ (runCheckout st false invUpdateFails).finalState = st
    ∧ ∀ fails2 : String → Bool, (runCheckout st false fails2).success = true →
        (runCheckout st false fails2).finalState = clearCart st := by
  have hrun : runCheckout st false invUpdateFails
      = ⟨false, saleRecords st,
          applyDeductions st (ingredientDeductions st) invUpdateFails, st⟩ := by
    unfold runCheckout
    rw [if_pos hv]
    dsimp only
    rw [if_neg Bool.false_ne_true, if_pos hf]
  refine ⟨by rw [hrun], by rw [hrun], by rw [hrun], ?_⟩
  intro fails2 hsucc
  unfold runCheckout at hsucc ⊢
  rw [if_pos hv] at hsucc ⊢
  dsimp only at hsucc ⊢
  rw [if_neg Bool.false_ne_true] at hsucc ⊢
  by_cases hany : (ingredientDeductions st).any
      (fun e => (findItem st e.1).isSome && fails2 e.1) = true
  · rw [if_pos hany] at hsucc
    cases hsucc
  · rw [if_neg hany]

section

attribute [local semireducible] Rat.mul Rat.add Rat.sub Rat.inv

/-- Witness for C6 at the worked example with every inventory update failing:
the checkout is reported failed, yet the two sale rows remain persisted and
the cart is not cleared. -/
theorem checkout_no_rollback_witness :
    checkoutValidates exSt3 = true
    ∧ (runCheckout exSt3 false (fun _ => true)).success = false
    ∧ (runCheckout exSt3 false (fun _ => true)).persistedSales = saleRecords exSt3
    ∧ (runCheckout exSt3 false (fun _ => true)).finalState = exSt3 :=
  ⟨by decide,
    (checkout_no_rollback exSt3 (fun _ => true) (by decide) (by decide)).1,
    (checkout_no_rollback exSt3 (fun _ => true) (by decide) (by decide)).2.1,
    (checkout_no_rollback exSt3 (fun _ => true) (by decide) (by decide)).2.2.1⟩

end

end AltuSales
